import Mathlib

/-!
# Verification of the adblock-rust-check source-resolution and query pipeline

This file shallowly embeds the two source files of the repository:

* `src/lib/util.js` — client construction from strings, DAT files, list URLs,
  catalog UUIDs and file paths, plus the site-list reader;
* the driver script (`src/unnamed/part_000`) — flag-based source selection and
  the query/result handler.

JavaScript strings are modelled by Lean `String`; `String.prototype.split('\n')`
and `Array.prototype.join('\n')` are embedded as `splitNL` / `joinNL` below,
character-exact for the single-character separator `'\n'`.  The external
collaborators (the `adblock-rs` engine, the sanitizer from `./filtering`, the
network transport and the file system) are opaque: the engine is modelled by
the exact list of rule lines handed to its constructor, the sanitizer and the
file system are universally quantified function parameters, and a network
fetch is a value of `FetchOutcome`.
-/

namespace AdblockCheck

/-- JS `String.prototype.split('\n')` at the character level: splitting on the
single character `'\n'`, keeping empty segments (JS `split` never drops them).
The result is never `[]`; splitting the empty string gives `[""]`, and a
trailing separator produces a trailing empty segment, exactly as in JS. -/
def splitNLChars : List Char → List (List Char)
  | [] => [[]]
  | c :: rest =>
    if c = '\n' then [] :: splitNLChars rest
    else
      match splitNLChars rest with
      | [] => [[c]]
      | seg :: segs => (c :: seg) :: segs

/-- JS `s.split('\n')` on Lean strings. -/
def splitNL (s : String) : List String :=
  (splitNLChars s.data).map (fun cs => String.mk cs)

/-- JS `arr.join('\n')`: the empty array joins to `""`, a singleton joins to
itself, otherwise the elements are interleaved with `"\n"`. -/
def joinNL : List String → String
  | [] => ""
  | [s] => s
  | s :: rest => s ++ "\n" ++ joinNL rest

/-- The external `adblock-rs` `Engine` is opaque; the only thing the pipeline
determines is the ordered list of rule lines passed to `new Engine(...)`.  We
record exactly that list. -/
structure Engine where
  rules : List String
deriving DecidableEq, Repr

/-- `makeAdBlockClientFromString` (src/lib/util.js lines 17-28).  The JS
argument is either a string or an array of strings (`filterRuleData.constructor
=== Array`), modelled by a sum.  An array is joined with `'\n'`, and the
resulting string is split on `'\n'` and handed to the engine constructor.  The
unused `options` argument is omitted. -/
def makeAdBlockClientFromString (filterRuleData : String ⊕ List String) : Engine :=
  let rules : String :=
    match filterRuleData with
    | Sum.inl s => s
    | Sum.inr arr => joinNL arr
  Engine.mk (splitNL rules)

/-- Outcome of one `request.get`: either a transport error (the `error`
callback argument is set) or a response with a status code and a body. -/
inductive FetchOutcome where
  | transportError (msg : String)
  | response (statusCode : Nat) (body : String)
deriving DecidableEq, Repr

/-- JS truthiness test `if (filter) { body = filter(body) }` applied to an
optional filter function. -/
def applyFilter (filter : Option (String → String)) (body : String) : String :=
  match filter with
  | some f => f body
  | none => body

/-- Whether a fetch outcome takes one of the two rejecting paths of
`getSingleListDataFromSingleURL`: a transport error, or a status code other
than 200. -/
def fetchFails : FetchOutcome → Bool
  | FetchOutcome.transportError _ => true
  | FetchOutcome.response code _ => code != 200

/-- `getSingleListDataFromSingleURL` (src/lib/util.js lines 56-74), as a
function of the sanitizer, the URL, the optional filter and the fetch outcome.
On a transport error or a non-200 status code the promise rejects with the
corresponding message; otherwise the body is filtered (if a filter was given)
and sanitized once, and the promise resolves with that text. -/
def getSingleListDataFromSingleURL (sanitize : String → String) (listURL : String)
    (filter : Option (String → String)) (outcome : FetchOutcome) : Except String String :=
  match outcome with
  | FetchOutcome.transportError e => Except.error ("Request error: " ++ e)
  | FetchOutcome.response code body =>
    if code != 200 then
      Except.error ("Error status code " ++ toString code ++ " returned for URL: " ++ listURL)
    else
      Except.ok (sanitize (applyFilter filter body))

instance : DecidableEq (Except String String) := fun a b =>
  match a, b with
  | Except.error e, Except.error f =>
    if h : e = f then isTrue (by rw [h]) else isFalse (by simp [h])
  | Except.ok v, Except.ok w =>
    if h : v = w then isTrue (by rw [h]) else isFalse (by simp [h])
  | Except.error _, Except.ok _ => isFalse (by simp)
  | Except.ok _, Except.error _ => isFalse (by simp)

/-- The elements of `l` paired with their positions, starting at `i`:
`withIndices 0 l` is the list of promises of a `Promise.all` call tagged with
their original input indices. -/
def withIndices (i : Nat) : List α → List (Nat × α)
  | [] => []
  | x :: xs => (i, x) :: withIndices (i + 1) xs

/-- Settling a list of promise results in input order: the first rejection (in
input order) rejects the whole list, otherwise all fulfilled values are
collected in input order. -/
def sequenceSettled : List (Except String String) → Except String (List String)
  | [] => Except.ok []
  | Except.error e :: _ => Except.error e
  | Except.ok v :: rest =>
    match sequenceSettled rest with
    | Except.ok vs => Except.ok (v :: vs)
    | Except.error e => Except.error e

/-- Reassembles, from the settlement events `completions` (pairs of an original
index and that promise's result, listed in an arbitrary completion order), the
results of promises `i, i+1, ..., i+n-1` in original index order.  Returns
`none` if some index never settled. -/
def assembleFrom (completions : List (Nat × Except String String)) (i : Nat) :
    Nat → Option (List (Except String String))
  | 0 => some []
  | Nat.succ k =>
    match completions.find? (fun p => p.1 == i), assembleFrom completions (i + 1) k with
    | some p, some rest => some (p.2 :: rest)
    | _, _ => none

/-- Models `Promise.all` over `n` promises whose settlement events, in
completion order, are `completions`: the results are reassembled in original
input-index order regardless of the completion order, and the whole call
rejects when some promise rejected.  (JS rejects with the first rejection in
completion order; this model surfaces the first rejection in *input* order —
theorems about the rejecting case therefore only assert that it rejects.) -/
def promiseAll (completions : List (Nat × Except String String)) (n : Nat) :
    Option (Except String (List String)) :=
  (assembleFrom completions 0 n).map sequenceSettled

/-- The `listURL.constructor === Array` branch of `makeAdBlockClientFromListURL`
(src/lib/util.js lines 84-97).  Each URL is mapped to its
`getSingleListDataFromSingleURL` promise; `urlOutcomes` carries each URL with
its fetch outcome, and `completions` carries the settlement events of those
promises in an arbitrary completion order (the guard checks that `completions`
is a genuine completion of exactly those promises, and yields `none` on a
meaningless event list).  On success the results are joined with `'\n'` in
input order, sanitized a second time, and handed to
`makeAdBlockClientFromString`; on failure the whole promise rejects with a
wrapped error message. -/
def makeAdBlockClientFromListURLMulti (sanitize : String → String)
    (filter : Option (String → String)) (urlOutcomes : List (String × FetchOutcome))
    (completions : List (Nat × Except String String)) : Option (Except String Engine) :=
  if completions.Perm (withIndices 0 (urlOutcomes.map fun uo =>
      getSingleListDataFromSingleURL sanitize uo.1 filter uo.2)) then
    (promiseAll completions urlOutcomes.length).map fun res =>
      match res with
      | Except.ok results =>
        Except.ok (makeAdBlockClientFromString (Sum.inl (sanitize (joinNL results))))
      | Except.error e =>
        Except.error ("getSingleListDataFromSingleURL error: " ++ e)
  else none

/-- The non-array branch of `makeAdBlockClientFromListURL` (src/lib/util.js
lines 98-106): the single URL's list data (already sanitized once inside
`getSingleListDataFromSingleURL`) is sanitized again and handed to
`makeAdBlockClientFromString`; a rejection is wrapped and propagated. -/
def makeAdBlockClientFromListURLSingle (sanitize : String → String) (listURL : String)
    (filter : Option (String → String)) (outcome : FetchOutcome) : Except String Engine :=
  match getSingleListDataFromSingleURL sanitize listURL filter outcome with
  | Except.ok listData =>
    Except.ok (makeAdBlockClientFromString (Sum.inl (sanitize listData)))
  | Except.error e =>
    Except.error ("getSingleListDataFromSingleURL error: " ++ e)

/-- `getListFilterFunction` (src/lib/util.js lines 110-116): the registry
returns the header-stripping transform for the one known UUID and `undefined`
(here `none`) for every other identifier.  The transform drops the first 4
lines (`slice(4)`), prefixes every remaining line with `"||"`, and rejoins
with `'\n'`. -/
def getListFilterFunction (uuid : String) : Option (String → String) :=
  if uuid = "FBB430E8-3910-4761-9373-840FC3B43FF2" then
    some (fun input => joinNL (((splitNL input).drop 4).map (fun line => "||" ++ line)))
  else
    none

/-- One catalog entry: the fields of the list objects the script consumes. -/
structure ListDescriptor where
  uuid : String
  url : String
deriving DecidableEq, Repr

/-- The three named catalogs the UUID lookup is supposed to search. -/
structure Catalogs where
  defaultLists : List ListDescriptor
  regions : List ListDescriptor
  malware : List ListDescriptor
deriving DecidableEq, Repr

/-- A thrown JS error value. -/
inductive JSError where
  | referenceError (name : String)
  | notFound (msg : String)
deriving DecidableEq, Repr

/-- `makeAdBlockClientFromListUUID` (src/lib/util.js lines 127-141).  Its first
statement is `let list = new list("default").find((l) => l.uuid === uuid)`:
the name `list` is referenced inside its own `let` initializer, which is a
temporal-dead-zone violation, so the statement throws
`ReferenceError: Cannot access 'list' before initialization` on every call —
before any catalog is consulted.  (The fallback branches are equally broken:
they read `adBlockLists.regions` / `adBlockLists.malware`, and no binding
`adBlockLists` exists in the module.)  The function therefore never returns a
descriptor and never produces the `No list found for UUID` rejection. -/
def makeAdBlockClientFromListUUID (cats : Catalogs) (uuid : String) :
    Except JSError ListDescriptor :=
  Except.error (JSError.referenceError "list")

/-- `makeAdBlockClientFromFilePath` (src/lib/util.js lines 150-160) as a
function of the file system `fs` (path to contents; `fs.readFileSync(path,
'utf8')`).  A path array is mapped to the array of file contents, a single
path to its contents, and the result is handed unchanged to
`makeAdBlockClientFromString` — no transform and no sanitizer appears anywhere
on this path. -/
def makeAdBlockClientFromFilePath (fs : String → String)
    (filePath : String ⊕ List String) : Engine :=
  makeAdBlockClientFromString
    (match filePath with
     | Sum.inl p => Sum.inl (fs p)
     | Sum.inr ps => Sum.inr (ps.map fs))

/-- `readSiteList` (src/lib/util.js lines 186-187): the file contents split on
`'\n'`, with no filtering of empty entries. -/
def readSiteList (fs : String → String) (path : String) : List String :=
  splitNL (fs path)

/-- The commander flags of the driver script.  A flag taking a value is
`Option String` (`none` when not supplied); `--stats` and `--cache` are plain
booleans; `--filter-option` defaults to `"image"` as declared in the option
table. -/
structure Flags where
  uuid : Option String := none
  dat : Option String := none
  filter : Option String := none
  filterPath : Option String := none
  http : Option String := none
  host : Option String := none
  location : Option String := none
  output : Option String := none
  list : Option String := none
  stats : Bool := false
  cache : Bool := false
  filterOption : String := "image"
deriving DecidableEq, Repr

/-- JS truthiness of an optional string flag: missing (`undefined`) and the
empty string are falsy, every other string is truthy. -/
def truthy : Option String → Bool
  | none => false
  | some s => s != ""

/-- JS template-literal rendering of a possibly-undefined string value
(`undefined` interpolates as the text "undefined"). -/
def optStr : Option String → String
  | none => "undefined"
  | some s => s

/-- The six possible outcomes of the driver's source-selection chain. -/
inductive SourceChoice where
  | catalogIdentifier
  | snapshotFile
  | remoteURL
  | rawFilterText
  | localFilePath
  | defaultCatalogURLs
deriving DecidableEq, Repr

/-- The source-selection chain of the driver script (lines 46-64): the
`if/else if` ladder over `commander.uuid`, `commander.dat`, `commander.http`,
`commander.filter`, `commander.filterPath`, falling through to the built-in
default catalog URL set.  (The chain only runs when the usage guard
`(host && (location || list)) || stats` passes; the chain itself is modelled
here.) -/
def selectSource (f : Flags) : SourceChoice :=
  if truthy f.uuid then SourceChoice.catalogIdentifier
  else if truthy f.dat then SourceChoice.snapshotFile
  else if truthy f.http then SourceChoice.remoteURL
  else if truthy f.filter then SourceChoice.rawFilterText
  else if truthy f.filterPath then SourceChoice.localFilePath
  else SourceChoice.defaultCatalogURLs

/-- One call to `adBlockClient.check`, recording the three positional
arguments in order.  The engine's signature is
`check(url, source_url, request_type)`. -/
structure CheckCall where
  urlArg : String
  sourceArg : String
  typeArg : String
deriving DecidableEq, Repr

/-- One observable step of the driver's result handler. -/
inductive HandlerStep where
  | printStats
  | singleCheck (call : CheckCall)
  | batchChecks (calls : List CheckCall)
  | writeOutput (path : String)
deriving DecidableEq, Repr

/-- The fulfilled-promise handler of the driver script (lines 71-98), as the
ordered list of its observable steps.  With `--stats` it prints the parsing
stats and returns early (so no query runs and no output is written).
Otherwise, with a location it runs the single check
`check(location, https://host, filterOption)`; without one it reads the site
list and runs `check(site, filterOption, host)` for every line.  Finally,
if `--output` is truthy the serialized client is written to that path. -/
def resultHandler (fs : String → String) (f : Flags) : List HandlerStep :=
  if f.stats then [HandlerStep.printStats]
  else
    (if truthy f.location then
      [HandlerStep.singleCheck
        (CheckCall.mk (optStr f.location) ("https://" ++ optStr f.host) f.filterOption)]
    else
      [HandlerStep.batchChecks
        ((readSiteList fs (optStr f.list)).map fun site =>
          CheckCall.mk site f.filterOption (optStr f.host))]) ++
    (if truthy f.output then [HandlerStep.writeOutput (optStr f.output)] else [])

/-- The batch counting loop of the driver script (lines 81-91): fold over the
site list, incrementing `matchCount` when `check(site, filterOption, host)`
returns true and `skipCount` otherwise.  The engine's check behaviour is the
opaque parameter `check` (applied to the three arguments in call order). -/
def runBatchCounts (check : String → String → String → Bool)
    (filterOption host : String) (siteList : List String) : Nat × Nat :=
  siteList.foldl
    (fun counts site =>
      if check site filterOption host then (counts.1 + 1, counts.2)
      else (counts.1, counts.2 + 1))
    (0, 0)

/-- A sample catalog entry: the UUID the driver script's own usage examples
pass to `--uuid`. -/
def sampleDescriptor : ListDescriptor :=
  ListDescriptor.mk "67F880F5-7602-4042-8A3D-01481FD7437A" "https://example.com/list.txt"

/-- A catalog state whose `default` catalog contains `sampleDescriptor`. -/
def sampleCatalogs : Catalogs :=
  Catalogs.mk [sampleDescriptor] [] []

/-- The behaviour claim C5 ascribes to the local-file path, written from the
spec's words (§4.3 `LocalFile` and §4.4): each file's content is one part,
the part's transform is the identity, and each part is passed through the
sanitizer before being handed to client construction. -/
def claimedLocalFileClient (sanitize : String → String) (fs : String → String)
    (paths : List String) : Engine :=
  makeAdBlockClientFromString (Sum.inr (paths.map fun p => sanitize (fs p)))

/-! ## Helper lemmas -/

theorem find_eq_of_mem_nodup {β : Type} :
    ∀ {l : List (Nat × β)} (i : Nat) (v : β),
      (l.map Prod.fst).Nodup → (i, v) ∈ l → l.find? (fun p => p.1 == i) = some (i, v) := by
  intro l
  induction l with
  | nil => intro i v _ hmem; cases hmem
  | cons hd tl ih =>
    intro i v hnd hmem
    rw [List.map_cons, List.nodup_cons] at hnd
    obtain ⟨hhd, htl⟩ := hnd
    rcases List.mem_cons.mp hmem with h | h
    · rw [← h]
      simp [List.find?]
    · have hkey : hd.1 ≠ i := by
        intro hk
        exact hhd (hk ▸ List.mem_map.mpr ⟨(i, v), h, rfl⟩)
      have hfalse : (hd.1 == i) = false := by simp [hkey]
      simp only [List.find?, hfalse]
      exact ih i v htl h

theorem fst_mem_withIndices_ge {α : Type} :
    ∀ (l : List α) (i : Nat) (p : Nat × α), p ∈ withIndices i l → i ≤ p.1 := by
  intro l
  induction l with
  | nil => intro i p hp; cases hp
  | cons hd tl ih =>
    intro i p hp
    rcases List.mem_cons.mp hp with h | h
    · rw [h]
    · exact Nat.le_of_succ_le (ih (i + 1) p h)

theorem withIndices_keys_nodup {α : Type} :
    ∀ (l : List α) (i : Nat), ((withIndices i l).map Prod.fst).Nodup := by
  intro l
  induction l with
  | nil => intro i; simp [withIndices]
  | cons hd tl ih =>
    intro i
    simp only [withIndices, List.map_cons, List.nodup_cons]
    constructor
    · intro hmem
      rcases List.mem_map.mp hmem with ⟨p, hp, hfst⟩
      have := fst_mem_withIndices_ge tl (i + 1) p hp
      omega
    · exact ih (i + 1)

theorem mem_withIndices_get {α : Type} :
    ∀ (l : List α) (i j : Nat) (h : j < l.length),
      (i + j, l.get ⟨j, h⟩) ∈ withIndices i l := by
  intro l
  induction l with
  | nil => intro i j h; simp at h
  | cons hd tl ih =>
    intro i j h
    cases j with
    | zero => simp [withIndices]
    | succ k =>
      have hk : k < tl.length := by simpa using h
      have := ih (i + 1) k hk
      simp only [withIndices, List.mem_cons]
      right
      have harith : i + (k + 1) = (i + 1) + k := by omega
      rw [harith]
      simpa using this

theorem assembleFrom_of_find (completions : List (Nat × Except String String)) :
    ∀ (values : List (Except String String)) (i : Nat),
      (∀ (j : Nat) (h : j < values.length),
        completions.find? (fun p => p.1 == i + j) = some (i + j, values.get ⟨j, h⟩)) →
      assembleFrom completions i values.length = some values := by
  intro values
  induction values with
  | nil => intro i _; rfl
  | cons v vs ih =>
    intro i hfind
    have h0 : completions.find? (fun p => p.1 == i) = some (i, v) := by
      have := hfind 0 (by simp)
      simpa using this
    have hrest : assembleFrom completions (i + 1) vs.length = some vs := by
      apply ih
      intro j hj
      have := hfind (j + 1) (by simpa using Nat.succ_lt_succ hj)
      have harith : i + (j + 1) = (i + 1) + j := by omega
      rw [harith] at this
      simpa using this
    show assembleFrom completions i (vs.length + 1) = some (v :: vs)
    simp only [assembleFrom, h0, hrest]

theorem promiseAll_of_perm (completions : List (Nat × Except String String))
    (values : List (Except String String))
    (hperm : completions.Perm (withIndices 0 values)) :
    promiseAll completions values.length = some (sequenceSettled values) := by
  have hnd : (completions.map Prod.fst).Nodup :=
    ((hperm.map Prod.fst).nodup_iff).mpr (withIndices_keys_nodup values 0)
  have hassemble : assembleFrom completions 0 values.length = some values := by
    apply assembleFrom_of_find
    intro j hj
    have hmem : (j, values.get ⟨j, hj⟩) ∈ completions := by
      have := mem_withIndices_get values 0 j hj
      simpa using hperm.mem_iff.mpr (by simpa using this)
    have := find_eq_of_mem_nodup j (values.get ⟨j, hj⟩) hnd hmem
    simpa using this
  simp [promiseAll, hassemble]

theorem sequenceSettled_error_of_mem :
    ∀ (l : List (Except String String)) (e : String), Except.error e ∈ l →
      ∃ e2, sequenceSettled l = Except.error e2 := by
  intro l
  induction l with
  | nil => intro e h; cases h
  | cons hd tl ih =>
    intro e hmem
    match hd with
    | Except.error f => exact ⟨f, rfl⟩
    | Except.ok v =>
      have htl : Except.error e ∈ tl := by
        rcases List.mem_cons.mp hmem with h | h
        · cases h
        · exact h
      rcases ih e htl with ⟨e2, he2⟩
      exact ⟨e2, by simp [sequenceSettled, he2]⟩

theorem splitNLChars_ne_nil : ∀ (l : List Char), splitNLChars l ≠ [] := by
  intro l
  induction l with
  | nil => simp [splitNLChars]
  | cons c rest ih =>
    by_cases hc : c = '\n'
    · simp [splitNLChars, hc]
    · simp only [splitNLChars, if_neg hc]
      match hr : splitNLChars rest with
      | [] => exact absurd hr ih
      | seg :: segs => simp

theorem splitNLChars_append_newline :
    ∀ (l : List Char), splitNLChars (l ++ ['\n']) = splitNLChars l ++ [[]] := by
  intro l
  induction l with
  | nil => rfl
  | cons c rest ih =>
    by_cases hc : c = '\n'
    · simp [splitNLChars, hc, ih]
    · have hne := splitNLChars_ne_nil rest
      simp only [List.cons_append, splitNLChars, if_neg hc]
      rw [List.append_eq, ih]
      cases hsp : splitNLChars rest with
      | nil => exact absurd hsp hne
      | cons seg segs => simp

theorem splitNL_append_newline (s : String) :
    splitNL (s ++ "\n") = splitNL s ++ [""] := by
  show (splitNLChars (s ++ "\n").data).map (fun cs => String.mk cs) = _
  rw [String.data_append]
  show (splitNLChars (s.data ++ ['\n'])).map (fun cs => String.mk cs) = _
  rw [splitNLChars_append_newline]
  simp [splitNL]

theorem runBatchCounts_sum_aux (check : String → String → String → Bool)
    (filterOption host : String) :
    ∀ (l : List String) (init : Nat × Nat),
      (l.foldl
        (fun counts site =>
          if check site filterOption host then (counts.1 + 1, counts.2)
          else (counts.1, counts.2 + 1))
        init).1 +
      (l.foldl
        (fun counts site =>
          if check site filterOption host then (counts.1 + 1, counts.2)
          else (counts.1, counts.2 + 1))
        init).2 = init.1 + init.2 + l.length := by
  intro l
  induction l with
  | nil => intro init; simp
  | cons hd tl ih =>
    intro init
    simp only [List.foldl_cons, List.length_cons]
    by_cases hc : check hd filterOption host
    · rw [if_pos hc, ih]; omega
    · rw [if_neg hc, ih]; omega

theorem runBatchCounts_sum (check : String → String → String → Bool)
    (filterOption host : String) (siteList : List String) :
    (runBatchCounts check filterOption host siteList).1 +
      (runBatchCounts check filterOption host siteList).2 = siteList.length := by
  have := runBatchCounts_sum_aux check filterOption host siteList (0, 0)
  simpa [runBatchCounts] using this

theorem nl_bars_append (y : String) : ("\n" : String) ++ ("||" ++ y) = "\n||" ++ y := by
  rw [← String.append_assoc]
  rfl

/-! ## Claim theorems -/

/-- C9: even for a single-URL (non-array) RemoteList source the sanitizer is
applied twice — once inside the per-URL fetch and once again before client
construction — so for every fetched body `b` with transform `f` the client is
built from `sanitize (sanitize (f b))`. -/
theorem singleURL_double_sanitize (sanitize : String → String) (listURL : String)
    (filter : Option (String → String)) (b : String) :
    makeAdBlockClientFromListURLSingle sanitize listURL filter (FetchOutcome.response 200 b)
      = Except.ok (makeAdBlockClientFromString
          (Sum.inl (sanitize (sanitize (applyFilter filter b))))) := by
  simp [makeAdBlockClientFromListURLSingle, getSingleListDataFromSingleURL]

/-- C3: source selection follows the fixed precedence where the first
applicable flag wins — catalog identifier (`--uuid`) beats snapshot file
(`--dat`), which beats remote URL (`--http`), which beats raw filter text
(`--filter`), which beats local file path (`--filter-path`) — and when none of
these is supplied the built-in default catalog URL set is used. -/
theorem source_selection_precedence (f : Flags) :
    (truthy f.uuid = true → selectSource f = SourceChoice.catalogIdentifier) ∧
    (truthy f.uuid = false → truthy f.dat = true →
      selectSource f = SourceChoice.snapshotFile) ∧
    (truthy f.uuid = false → truthy f.dat = false → truthy f.http = true →
      selectSource f = SourceChoice.remoteURL) ∧
    (truthy f.uuid = false → truthy f.dat = false → truthy f.http = false →
      truthy f.filter = true → selectSource f = SourceChoice.rawFilterText) ∧
    (truthy f.uuid = false → truthy f.dat = false → truthy f.http = false →
      truthy f.filter = false → truthy f.filterPath = true →
      selectSource f = SourceChoice.localFilePath) ∧
    (truthy f.uuid = false → truthy f.dat = false → truthy f.http = false →
      truthy f.filter = false → truthy f.filterPath = false →
      selectSource f = SourceChoice.defaultCatalogURLs) := by
  refine ⟨?_, ?_, ?_, ?_, ?_, ?_⟩ <;> intros <;> simp_all [selectSource]

/-- Witness for C3: the precedence theorem applied at six concrete flag
combinations, one per level of the chain. -/
theorem source_selection_precedence_witness :
    selectSource { uuid := some "u1", dat := some "d1", http := some "h1", filter := some "f1", filterPath := some "p1" }
      = SourceChoice.catalogIdentifier ∧
    selectSource { dat := some "d1", http := some "h1", filter := some "f1", filterPath := some "p1" }
      = SourceChoice.snapshotFile ∧
    selectSource { http := some "h1", filter := some "f1", filterPath := some "p1" }
      = SourceChoice.remoteURL ∧
    selectSource { filter := some "f1", filterPath := some "p1" }
      = SourceChoice.rawFilterText ∧
    selectSource { filterPath := some "p1" } = SourceChoice.localFilePath ∧
    selectSource {} = SourceChoice.defaultCatalogURLs := by
  refine ⟨?_, ?_, ?_, ?_, ?_, ?_⟩
  · exact (source_selection_precedence _).1 (by decide)
  · exact (source_selection_precedence _).2.1 (by decide) (by decide)
  · exact (source_selection_precedence _).2.2.1 (by decide) (by decide) (by decide)
  · exact (source_selection_precedence _).2.2.2.1 (by decide) (by decide) (by decide)
      (by decide)
  · exact (source_selection_precedence _).2.2.2.2.1 (by decide) (by decide) (by decide)
      (by decide) (by decide)
  · exact (source_selection_precedence _).2.2.2.2.2 (by decide) (by decide) (by decide)
      (by decide) (by decide)

/-- C8: for the registered identifier, given input text whose lines are
exactly 4 header lines followed by `d1`, `d2`, `d3`, the transform discards
the 4 header lines, rewrites each remaining line `L` to `"||" ++ L` in order
and rejoins with newline; every other identifier has no registered transform,
so the lookup yields identity behaviour at every call site. -/
theorem transform_registry_header_strip (input h1 h2 h3 h4 d1 d2 d3 : String)
    (hsplit : splitNL input = [h1, h2, h3, h4, d1, d2, d3]) :
    applyFilter (getListFilterFunction "FBB430E8-3910-4761-9373-840FC3B43FF2") input
      = "||" ++ d1 ++ "\n" ++ "||" ++ d2 ++ "\n" ++ "||" ++ d3 ∧
    ∀ uuid, uuid ≠ "FBB430E8-3910-4761-9373-840FC3B43FF2" →
      ∀ b, applyFilter (getListFilterFunction uuid) b = b := by
  constructor
  · simp [applyFilter, getListFilterFunction, hsplit, joinNL, String.append_assoc,
      nl_bars_append]
  · intro uuid huuid b
    simp [applyFilter, getListFilterFunction, huuid]

/-- Witness for C8: the transform theorem applied to a concrete 7-line input. -/
theorem transform_registry_header_strip_witness :
    splitNL "t1\nt2\nt3\nt4\nx.com\ny.com\nz.com"
      = ["t1", "t2", "t3", "t4", "x.com", "y.com", "z.com"] ∧
    applyFilter (getListFilterFunction "FBB430E8-3910-4761-9373-840FC3B43FF2")
        "t1\nt2\nt3\nt4\nx.com\ny.com\nz.com"
      = "||x.com\n||y.com\n||z.com" := by
  have hs : splitNL "t1\nt2\nt3\nt4\nx.com\ny.com\nz.com"
      = ["t1", "t2", "t3", "t4", "x.com", "y.com", "z.com"] := by decide
  refine ⟨hs, ?_⟩
  have h := (transform_registry_header_strip _ "t1" "t2" "t3" "t4" "x.com" "y.com" "z.com" hs).1
  rw [h]
  decide

/-- C2 (code bug): catalog resolution is supposed to search `default`, then
`regions`, then `malware` and return the first matching descriptor, failing
with a not-found rejection otherwise; but `makeAdBlockClientFromListUUID`
throws a `ReferenceError` on every call (its first statement reads `list`
inside its own `let` initializer, and `adBlockLists` is not defined), so even
an identifier present in the `default` catalog is never resolved. -/
theorem catalog_lookup_reference_error (cats : Catalogs) (uuid : String)
    (d : ListDescriptor) (hmem : d ∈ cats.defaultLists) (hid : d.uuid = uuid) :
    makeAdBlockClientFromListUUID cats uuid = Except.error (JSError.referenceError "list") ∧
    makeAdBlockClientFromListUUID cats uuid ≠ Except.ok d := by
  exact ⟨rfl, by simp [makeAdBlockClientFromListUUID]⟩

/-- Witness for C2: the ReferenceError theorem applied to a catalog state that
does contain the queried identifier in its `default` catalog. -/
theorem catalog_lookup_reference_error_witness :
    makeAdBlockClientFromListUUID sampleCatalogs "67F880F5-7602-4042-8A3D-01481FD7437A"
      = Except.error (JSError.referenceError "list") ∧
    makeAdBlockClientFromListUUID sampleCatalogs "67F880F5-7602-4042-8A3D-01481FD7437A"
      ≠ Except.ok sampleDescriptor :=
  catalog_lookup_reference_error sampleCatalogs _ sampleDescriptor
    (by simp [sampleCatalogs]) (by decide)

/-- Counterexample to C5 as stated: the local-file path hands file contents to
client construction without ever applying the sanitizer, so a sanitizer that
is not the identity on the content refutes the claimed pipeline. -/
theorem localfile_sanitize_counterexample :
    ¬ ∀ (sanitize fs : String → String) (paths : List String),
        makeAdBlockClientFromFilePath fs (Sum.inr paths)
          = claimedLocalFileClient sanitize fs paths :=
  fun h => absurd (h (fun _ => "") (fun _ => "adrule") ["rules.txt"]) (by decide)

/-- C5 as amended: each file of a LocalFile source is read as text and treated
as one part with the identity transform — the parts are joined with newline
and split into rule lines for the engine — but no sanitizer is applied
anywhere on this path. -/
theorem localfile_identity_no_sanitize (fs : String → String) (paths : List String)
    (p : String) :
    makeAdBlockClientFromFilePath fs (Sum.inr paths)
      = Engine.mk (splitNL (joinNL (paths.map fs))) ∧
    makeAdBlockClientFromFilePath fs (Sum.inl p) = Engine.mk (splitNL (fs p)) := by
  exact ⟨rfl, rfl⟩

/-- Counterexample to C6 as stated: with `--stats` and `--output` both
supplied, the handler prints the stats and returns early, so the requested
output file is never written. -/
theorem output_write_counterexample :
    ¬ ∀ (fs : String → String) (f : Flags), truthy f.output = true →
        HandlerStep.writeOutput (optStr f.output) ∈ resultHandler fs f := by
  intro h
  have := h (fun _ => "") { stats := true, output := some "client.dat" } (by decide)
  simp [resultHandler] at this

/-- C6 as amended: the serialized client is written to the requested output
path if and only if an output path was requested AND the run was a query mode
(single or batch) — in stats mode the handler returns before the write. -/
theorem output_write_iff (fs : String → String) (f : Flags) (p : String) :
    HandlerStep.writeOutput p ∈ resultHandler fs f ↔
      f.stats = false ∧ truthy f.output = true ∧ p = optStr f.output := by
  unfold resultHandler
  by_cases hs : f.stats
  · simp [hs]
  · by_cases ho : truthy f.output
    · by_cases hl : truthy f.location <;> simp [hs, ho, hl, eq_comm]
    · by_cases hl : truthy f.location <;> simp [hs, ho, hl]

/-- C4 (code bug): in batch mode each site line is passed to
`check(site, filterOption, host)` — the resource-type hint sits in the
origin position and the raw host in the resource-type position — whereas
single mode issues `check(location, "https://" ++ host, filterOption)`, so
the batch call is NOT built the same way as the single-mode call. -/
theorem batch_check_argument_swap :
    resultHandler (fun _ => "https://example.com/ad.js")
        { host := some "www.cnet.com", list := some "sites.txt" }
      = [HandlerStep.batchChecks
          [CheckCall.mk "https://example.com/ad.js" "image" "www.cnet.com"]] ∧
    resultHandler (fun _ => "https://example.com/ad.js")
        { host := some "www.cnet.com", location := some "https://example.com/ad.js" }
      = [HandlerStep.singleCheck
          (CheckCall.mk "https://example.com/ad.js" "https://www.cnet.com" "image")] ∧
    CheckCall.mk "https://example.com/ad.js" "image" "www.cnet.com"
      ≠ CheckCall.mk "https://example.com/ad.js" "https://www.cnet.com" "image" := by
  decide

/-- C1: aggregating remote parts `[A, B, C]` whose fetches return those fixed
texts produces exactly
`sanitize (sanitize A ++ "\n" ++ sanitize B ++ "\n" ++ sanitize C)` handed to
client construction — each part sanitized once inside its fetch, joined with
newline in original input order regardless of the completion order of the
three fetch promises, then sanitized again. -/
theorem multiURL_aggregation_order (sanitize : String → String)
    (uA uB uC A B C : String) (completions : List (Nat × Except String String))
    (hperm : completions.Perm (withIndices 0
      [getSingleListDataFromSingleURL sanitize uA none (FetchOutcome.response 200 A),
       getSingleListDataFromSingleURL sanitize uB none (FetchOutcome.response 200 B),
       getSingleListDataFromSingleURL sanitize uC none (FetchOutcome.response 200 C)])) :
    makeAdBlockClientFromListURLMulti sanitize none
        [(uA, FetchOutcome.response 200 A), (uB, FetchOutcome.response 200 B),
         (uC, FetchOutcome.response 200 C)] completions
      = some (Except.ok (makeAdBlockClientFromString (Sum.inl
          (sanitize (sanitize A ++ "\n" ++ sanitize B ++ "\n" ++ sanitize C))))) := by
  have hlist :
      [getSingleListDataFromSingleURL sanitize uA none (FetchOutcome.response 200 A),
       getSingleListDataFromSingleURL sanitize uB none (FetchOutcome.response 200 B),
       getSingleListDataFromSingleURL sanitize uC none (FetchOutcome.response 200 C)]
      = [Except.ok (sanitize A), Except.ok (sanitize B), Except.ok (sanitize C)] := by
    simp [getSingleListDataFromSingleURL, applyFilter]
  rw [hlist] at hperm
  have hmain := promiseAll_of_perm completions
    [Except.ok (sanitize A), Except.ok (sanitize B), Except.ok (sanitize C)] hperm
  unfold makeAdBlockClientFromListURLMulti
  have hmap :
      ([(uA, FetchOutcome.response 200 A), (uB, FetchOutcome.response 200 B),
        (uC, FetchOutcome.response 200 C)].map fun uo =>
          getSingleListDataFromSingleURL sanitize uo.1 none uo.2)
      = [Except.ok (sanitize A), Except.ok (sanitize B), Except.ok (sanitize C)] := by
    simp [getSingleListDataFromSingleURL, applyFilter]
  rw [hmap, if_pos hperm]
  have hlen :
      ([(uA, FetchOutcome.response 200 A), (uB, FetchOutcome.response 200 B),
        (uC, FetchOutcome.response 200 C)] : List (String × FetchOutcome)).length = 3 := rfl
  rw [hlen]
  rw [show (3 : Nat) =
      ([Except.ok (sanitize A), Except.ok (sanitize B), Except.ok (sanitize C)] :
        List (Except String String)).length from rfl]
  rw [hmain]
  simp [sequenceSettled, joinNL, String.append_assoc]

/-- Witness for C1: the aggregation theorem applied to three concrete parts
whose promises complete in the order C, A, B; the result is still assembled
in the input order A, B, C. -/
theorem multiURL_aggregation_order_witness :
    ([(2, Except.ok "c3"), (0, Except.ok "a1"), (1, Except.ok "b2")] :
        List (Nat × Except String String)).Perm
      (withIndices 0
        [getSingleListDataFromSingleURL (fun s => s) "uA" none (FetchOutcome.response 200 "a1"),
         getSingleListDataFromSingleURL (fun s => s) "uB" none (FetchOutcome.response 200 "b2"),
         getSingleListDataFromSingleURL (fun s => s) "uC" none (FetchOutcome.response 200 "c3")]) ∧
    makeAdBlockClientFromListURLMulti (fun s => s) none
        [("uA", FetchOutcome.response 200 "a1"), ("uB", FetchOutcome.response 200 "b2"),
         ("uC", FetchOutcome.response 200 "c3")]
        [(2, Except.ok "c3"), (0, Except.ok "a1"), (1, Except.ok "b2")]
      = some (Except.ok (makeAdBlockClientFromString
          (Sum.inl ("a1" ++ "\n" ++ "b2" ++ "\n" ++ "c3")))) := by
  have hp :
      ([(2, Except.ok "c3"), (0, Except.ok "a1"), (1, Except.ok "b2")] :
          List (Nat × Except String String)).Perm
        (withIndices 0
          [getSingleListDataFromSingleURL (fun s => s) "uA" none (FetchOutcome.response 200 "a1"),
           getSingleListDataFromSingleURL (fun s => s) "uB" none (FetchOutcome.response 200 "b2"),
           getSingleListDataFromSingleURL (fun s => s) "uC" none (FetchOutcome.response 200 "c3")]) := by
    decide
  exact ⟨hp, multiURL_aggregation_order (fun s => s) "uA" "uB" "uC" "a1" "b2" "c3" _ hp⟩

theorem getSingle_fails (sanitize : String → String) (listURL : String)
    (filter : Option (String → String)) (outcome : FetchOutcome)
    (h : fetchFails outcome = true) :
    ∃ e, getSingleListDataFromSingleURL sanitize listURL filter outcome = Except.error e := by
  match outcome with
  | FetchOutcome.transportError msg => exact ⟨"Request error: " ++ msg, rfl⟩
  | FetchOutcome.response code body =>
    have hcode : (code != 200) = true := by simpa [fetchFails] using h
    exact ⟨"Error status code " ++ toString code ++ " returned for URL: " ++ listURL,
      by simp [getSingleListDataFromSingleURL, hcode]⟩

/-- C7: if any single fetch of a multi-part remote aggregation suffers a
transport error or a non-200 status code, the whole aggregation rejects with
an error and no client is produced, even when other parts succeeded. -/
theorem multiURL_failure_no_partial (sanitize : String → String)
    (filter : Option (String → String)) (urlOutcomes : List (String × FetchOutcome))
    (completions : List (Nat × Except String String))
    (hperm : completions.Perm (withIndices 0 (urlOutcomes.map fun uo =>
      getSingleListDataFromSingleURL sanitize uo.1 filter uo.2)))
    (hfail : ∃ uo ∈ urlOutcomes, fetchFails uo.2 = true) :
    (∃ e, makeAdBlockClientFromListURLMulti sanitize filter urlOutcomes completions
      = some (Except.error e)) ∧
    ∀ client, makeAdBlockClientFromListURLMulti sanitize filter urlOutcomes completions
      ≠ some (Except.ok client) := by
  obtain ⟨uo, huo, hf⟩ := hfail
  obtain ⟨e, he⟩ := getSingle_fails sanitize uo.1 filter uo.2 hf
  have hmem : Except.error e ∈ (urlOutcomes.map fun uo =>
      getSingleListDataFromSingleURL sanitize uo.1 filter uo.2) := by
    rw [← he]
    exact List.mem_map.mpr ⟨uo, huo, rfl⟩
  obtain ⟨e2, he2⟩ := sequenceSettled_error_of_mem _ e hmem
  have hmain := promiseAll_of_perm completions _ hperm
  rw [List.length_map] at hmain
  have hresult : makeAdBlockClientFromListURLMulti sanitize filter urlOutcomes completions
      = some (Except.error ("getSingleListDataFromSingleURL error: " ++ e2)) := by
    unfold makeAdBlockClientFromListURLMulti
    rw [if_pos hperm, hmain, he2]
    rfl
  refine ⟨⟨"getSingleListDataFromSingleURL error: " ++ e2, hresult⟩, ?_⟩
  intro client hcontra
  rw [hresult] at hcontra
  simp at hcontra

/-- Witness for C7: the failure theorem applied to two concrete parts, the
first of which succeeds and the second of which returns status 404; the
rejection arrives first in completion order. -/
theorem multiURL_failure_no_partial_witness :
    (([(1, Except.error ("Error status code " ++ toString 404 ++ " returned for URL: u2")),
       (0, Except.ok "ok1")] : List (Nat × Except String String)).Perm
      (withIndices 0
        ([("u1", FetchOutcome.response 200 "ok1"),
          ("u2", FetchOutcome.response 404 "nf")].map fun uo =>
            getSingleListDataFromSingleURL (fun s => s) uo.1 none uo.2))) ∧
    (∃ e, makeAdBlockClientFromListURLMulti (fun s => s) none
        [("u1", FetchOutcome.response 200 "ok1"), ("u2", FetchOutcome.response 404 "nf")]
        [(1, Except.error ("Error status code " ++ toString 404 ++ " returned for URL: u2")),
         (0, Except.ok "ok1")]
      = some (Except.error e)) ∧
    ∀ client, makeAdBlockClientFromListURLMulti (fun s => s) none
        [("u1", FetchOutcome.response 200 "ok1"), ("u2", FetchOutcome.response 404 "nf")]
        [(1, Except.error ("Error status code " ++ toString 404 ++ " returned for URL: u2")),
         (0, Except.ok "ok1")]
      ≠ some (Except.ok client) := by
  have hp :
      (([(1, Except.error ("Error status code " ++ toString 404 ++ " returned for URL: u2")),
         (0, Except.ok "ok1")] : List (Nat × Except String String)).Perm
        (withIndices 0
          ([("u1", FetchOutcome.response 200 "ok1"),
            ("u2", FetchOutcome.response 404 "nf")].map fun uo =>
              getSingleListDataFromSingleURL (fun s => s) uo.1 none uo.2))) := by
    decide
  have h := multiURL_failure_no_partial (fun s => s) none
    [("u1", FetchOutcome.response 200 "ok1"), ("u2", FetchOutcome.response 404 "nf")]
    [(1, Except.error ("Error status code " ++ toString 404 ++ " returned for URL: u2")),
     (0, Except.ok "ok1")]
    hp ⟨("u2", FetchOutcome.response 404 "nf"), by decide, by decide⟩
  exact ⟨hp, h.1, h.2⟩

/-- C10: reading a site list splits the file on newline with no filtering of
empty entries, so for a file ending in a newline the batch loop issues one
extra query for the trailing empty string, and `matchCount + skipCount` equals
the number of newline-separated segments — the lines of the body plus one, not
the number of non-empty lines. -/
theorem sitelist_trailing_newline (check : String → String → String → Bool)
    (filterOption host : String) (fs : String → String) (path s : String)
    (hfile : fs path = s ++ "\n") :
    readSiteList fs path = splitNL s ++ [""] ∧
    (runBatchCounts check filterOption host (readSiteList fs path)).1 +
      (runBatchCounts check filterOption host (readSiteList fs path)).2
      = (splitNL s).length + 1 ∧
    ((∀ line ∈ splitNL s, line ≠ "") →
      (runBatchCounts check filterOption host (readSiteList fs path)).1 +
        (runBatchCounts check filterOption host (readSiteList fs path)).2
        = ((readSiteList fs path).filter (fun line => line != "")).length + 1) := by
  have hsites : readSiteList fs path = splitNL s ++ [""] := by
    rw [readSiteList, hfile, splitNL_append_newline]
  refine ⟨hsites, ?_, ?_⟩
  · rw [runBatchCounts_sum, hsites]
    simp
  · intro hne
    rw [runBatchCounts_sum, hsites, List.filter_append]
    have h1 : (splitNL s).filter (fun line => line != "") = splitNL s :=
      List.filter_eq_self.mpr (fun a ha => by simpa using hne a ha)
    rw [h1]
    simp

/-- Witness for C10: the site-list theorem applied to a concrete two-line file
with a trailing newline; three queries are issued and the counts sum to 3. -/
theorem sitelist_trailing_newline_witness :
    ((fun _ => "a.com\nb.com\n") "sites.txt" : String) = "a.com\nb.com" ++ "\n" ∧
    readSiteList (fun _ => "a.com\nb.com\n") "sites.txt" = ["a.com", "b.com", ""] ∧
    (runBatchCounts (fun _ _ _ => true) "image" "h"
        (readSiteList (fun _ => "a.com\nb.com\n") "sites.txt")).1 +
      (runBatchCounts (fun _ _ _ => true) "image" "h"
        (readSiteList (fun _ => "a.com\nb.com\n") "sites.txt")).2 = 3 := by
  have hfile : ((fun _ => "a.com\nb.com\n") "sites.txt" : String)
      = "a.com\nb.com" ++ "\n" := by decide
  have h := sitelist_trailing_newline (fun _ _ _ => true) "image" "h"
    (fun _ => "a.com\nb.com\n") "sites.txt" "a.com\nb.com" hfile
  refine ⟨hfile, ?_, ?_⟩
  · rw [h.1]
    decide
  · rw [h.2.1]
    decide

end AdblockCheck
